import Mathlib

/-!
Verification development for the TABE online ensemble orchestration engine
(`tabe/models/tabe.py`) and its dataset/loader memoization cache
(`tabe/data_provider/dataset_loader.py`).

Shallow embedding conventions:
* numpy arrays become `List Int` (1-D), `List (List Int)` (2-D), and
  `List (List (List Int))` (3-D batch tensors, indexed batch x time x feature);
* a fatal Python `assert` / `IndexError` / dict `KeyError` becomes `Option`
  (`none` = the run aborts);
* the contents of an `np.empty_like` allocation are arbitrary: they are
  supplied as explicit junk-generator parameters;
* the module-level cache dictionaries become an explicit `ProviderCache`
  value threaded through `get_data_provider`.

The combiner and adjuster model implementations are not part of the provided
sources (only their call sites are); they are modelled from the spec where
noted, as records of opaque functions.
-/

/-- A 3-D batch tensor such as `batch_x` / `batch_y`:
outer list = batch dimension, then time steps, then features. -/
abbrev Batch := List (List (List Int))

/-- One `(batch_x, batch_y, batch_x_mark, batch_y_mark)` tuple yielded by a
step-by-step loader. -/
structure StepBatch where
  batch_x : Batch
  batch_y : Batch
  batch_x_mark : Batch
  batch_y_mark : Batch

/-- The configuration fields consumed by the embedded core
(`configs` in the source). -/
structure Configs where
  data : String
  task_name : String
  embed : String
  freq : String
  batch_size : Nat
  num_workers : Nat
  seq_len : Nat
  label_len : Nat
  pred_len : Nat
  features : String
  target : String
  seasonal_patterns : String
  root_path : String
  data_path : String
  inverse : Bool

/-- The dataset collaborator as seen by `TabeModel.train`/`test`:
an ordered target table `data_y` (time x features), a scaling flag and the
`inverse_transform` operation over full-feature-width matrices. -/
structure DatasetT where
  data_y : List (List Int)
  scale : Bool
  inverse_transform : List (List Int) → List (List Int)

/-- The truth embedded in a window's target, `batch_y[0, -1, -1]`
(first batch element, last step, last feature). -/
def getTruth (batch_y : Batch) : Int :=
  ((batch_y.headD []).getLastD []).getLastD 0

/-- Replace the last entry of a row (`row[-1] = v`). -/
def setLastEntry (v : Int) : List Int → List Int
  | [] => []
  | [_] => [v]
  | a :: b :: rest => a :: setLastEntry v (b :: rest)

/-- Replace the last entry of the last row of a page (`page[-1, -1] = v`). -/
def setLastRowEntry (v : Int) : List (List Int) → List (List Int)
  | [] => []
  | [row] => [setLastEntry v row]
  | r :: s :: rest => r :: setLastRowEntry v (s :: rest)

/-- The window with its embedded truth entry replaced by `v`
(the assignment `batch_y[0, -1, -1] = v`; all other entries unchanged). -/
def setTruth (batch_y : Batch) (v : Int) : Batch :=
  match batch_y with
  | [] => []
  | page :: rest => setLastRowEntry v page :: rest

/-- The window's target with the embedded truth entry blanked out; used to
express that a prediction may depend on everything in the window except the
truth entry. -/
def maskTruth (batch_y : Batch) : Batch :=
  setTruth batch_y 0

/-- Modelled from the spec: the combiner-model implementation (the pre-trained
combiner behind `self.combiner_model`) is not among the provided sources.
Per the spec it exposes a list of base models, a batch `train` entry point,
a one-step prediction (yielding the ensemble prediction and one prediction
per base model), and an online self-update that may consume the revealed
truth. -/
structure Combiner (CState : Type) where
  basemodels : List Unit
  predict : CState → Batch → Batch → Batch → Batch → Int × List Int
  update : CState → Batch → Batch → Batch → Batch → CState
  trainFull : CState → CState

/-- Modelled from the spec: `combiner.proceed_onestep(window, training)`
returns `(ensemble_prediction, per_base_model_predictions)`.  The prediction
is computed from the current state and the window with the embedded truth
entry masked out ("prediction must be computed and returned before or
independently of any state mutation that uses the truth"); when `training` is
set the state is self-updated and that update may read the full window,
truth included. -/
def Combiner.proceed_onestep {CState : Type} (c : Combiner CState) (s : CState)
    (batch_x batch_y batch_x_mark batch_y_mark : Batch) (training : Bool) :
    (Int × List Int) × CState :=
  (c.predict s batch_x (maskTruth batch_y) batch_x_mark batch_y_mark,
   if training then c.update s batch_x batch_y batch_x_mark batch_y_mark else s)

/-- Modelled from the spec: the adjuster-model implementation (`TimeMoE`
behind `self.adjuster_model`) is not among the provided sources.  Per the
spec it exposes `train(truths, combiner_predictions) -> corrected_predictions`
(batch, one corrected prediction per truth) and a one-step
`proceed_onestep(truth, combiner_prediction, training)` whose corrected
prediction is computed before the truth-dependent self-update is applied. -/
structure Adjuster (AState : Type) where
  predict : AState → Int → Int
  update : AState → Int → Int → Bool → AState
  trainBatch : AState → List Int → List Int → AState × List Int
  trainBatch_length : ∀ s ys yhs, (trainBatch s ys yhs).2.length = ys.length

/-- Modelled from the spec: `adjuster.proceed_onestep(y, y_hat_cbm, training)`
returns the corrected prediction (a function of the current state and the
combiner prediction only, computed before the truth-dependent state update)
together with the self-updated state. -/
def Adjuster.proceed_onestep {AState : Type} (a : Adjuster AState) (s : AState)
    (y y_hat_cbm : Int) (training : Bool) : Int × AState :=
  (a.predict s y_hat_cbm, a.update s y y_hat_cbm training)

/-- The ensemble orchestrator state (`TabeModel.__init__` plus the history
fields it mutates).  Model states of the two collaborators are explicit. -/
structure TabeModel (CState AState : Type) where
  configs : Configs
  combiner_model : Combiner CState
  adjuster_model : Option (Adjuster AState)
  cState : CState
  aState : AState
  y_hat : List Int
  truths : List Int
  y_hat_cbm : List Int

/-- The value tuple produced by one `TabeModel.proceed_onestep` call: the
mutated orchestrator (`self` after the call) and the four returned
predictions. -/
structure StepResult (CState AState : Type) where
  model : TabeModel CState AState
  y_hat_tabe : Int
  y_hat_adj : Int
  y_hat_cbm : Int
  y_hat_bsm : List Int

/-- Embedding of `TabeModel.proceed_onestep` (tabe.py, lines 70-94).  `none` models the
fatal `assert batch_x.shape[0]==1 and batch_y.shape[0]==1`. -/
def TabeModel.proceed_onestep {CState AState : Type} (m : TabeModel CState AState)
    (batch_x batch_y batch_x_mark batch_y_mark : Batch) (training : Bool) :
    Option (StepResult CState AState) :=
  if batch_x.length = 1 ∧ batch_y.length = 1 then
    let y := getTruth batch_y
    let cbmRes := m.combiner_model.proceed_onestep m.cState
      batch_x batch_y batch_x_mark batch_y_mark training
    let y_hat_cbm := cbmRes.1.1
    let y_hat_bsm := cbmRes.1.2
    let adjRes : Int × AState :=
      match m.adjuster_model with
      | none => (y_hat_cbm, m.aState)
      | some adj => adj.proceed_onestep m.aState y y_hat_cbm training
    let y_hat_adj := adjRes.1
    let y_hat_tabe := y_hat_adj
    some { model := { m with
             cState := cbmRes.2
             aState := adjRes.2
             y_hat_cbm := m.y_hat_cbm ++ [y_hat_cbm]
             y_hat := m.y_hat ++ [y_hat_tabe]
             truths := m.truths ++ [y] }
           y_hat_tabe := y_hat_tabe
           y_hat_adj := y_hat_adj
           y_hat_cbm := y_hat_cbm
           y_hat_bsm := y_hat_bsm }
  else none

/-- The combiner-prediction collection loop of `TabeModel.train`
(tabe.py, lines 54-58): one combiner step per loader window, predictions
collected in order.  (The source writes into a pre-sized `np.empty_like(y)`
buffer indexed by the loop counter; after the `assert len(y) ==
len(train_loader)` the two are equivalent.) -/
def collectCbm {CState : Type} (c : Combiner CState) :
    List StepBatch → CState → List Int → CState × List Int
  | [], s, acc => (s, acc)
  | b :: rest, s, acc =>
    let r := c.proceed_onestep s b.batch_x b.batch_y b.batch_x_mark b.batch_y_mark false
    collectCbm c rest r.2 (acc ++ [r.1.1])

/-- Embedding of `TabeModel.train` (tabe.py, lines 48-68).  The `(train_dataset,
train_loader)` pair obtained from `get_data_provider(configs,
flag='ensemble_train', step_by_step=True)` is passed in explicitly (the
concrete dataset classes are outside the embedded core).  `none` models the
fatal `assert len(y) == len(train_loader)`. -/
def TabeModel.train {CState AState : Type} (m : TabeModel CState AState)
    (train_dataset : DatasetT) (train_loader : List StepBatch) :
    Option (TabeModel CState AState) :=
  let cState0 := m.combiner_model.trainFull m.cState
  let y := (train_dataset.data_y.drop m.configs.seq_len).map (fun row => row.getLastD 0)
  if y.length = train_loader.length then
    let collected := collectCbm m.combiner_model train_loader cState0 []
    let y_hat_cbm := collected.2
    match m.adjuster_model with
    | none =>
        some { m with
          cState := collected.1
          truths := y
          y_hat := y_hat_cbm
          y_hat_cbm := y_hat_cbm }
    | some adj =>
        let tr := adj.trainBatch m.aState y y_hat_cbm
        some { m with
          cState := collected.1
          aState := tr.1
          truths := y
          y_hat := tr.2
          y_hat_cbm := y_hat_cbm }
  else none

/-- Write `arr[t] = v` on a 1-D numpy array: `none` models the `IndexError` when
`t` is out of range. -/
def writeAt (l : List Int) (t : Nat) (v : Int) : Option (List Int) :=
  if t < l.length then some (l.set t v) else none

/-- Write `mat[:, t] = col` on a 2-D numpy array: `none` models the shape error
when `col` does not have one entry per row or `t` is out of range. -/
def writeCol (mat : List (List Int)) (t : Nat) (col : List Int) :
    Option (List (List Int)) :=
  if col.length = mat.length ∧ ∀ row ∈ mat, t < row.length then
    some (List.zipWith (fun row v => row.set t v) mat col)
  else none

/-- The per-step loop of `TabeModel.test` (tabe.py, lines 110-114):
`tabe_pred[t], y_hat_adj[t], y_hat_cbm[t], y_hat_bsm[:,t] =
self.proceed_onestep(..., training=True)`, threading the mutated
orchestrator through the steps. -/
def testLoop {CState AState : Type} :
    List StepBatch → Nat → TabeModel CState AState →
    List Int → List Int → List Int → List (List Int) →
    Option (TabeModel CState AState × List Int × List Int × List Int × List (List Int))
  | [], _, m, tabe_pred, y_hat_adj, y_hat_cbm, y_hat_bsm =>
      some (m, tabe_pred, y_hat_adj, y_hat_cbm, y_hat_bsm)
  | b :: rest, t, m, tabe_pred, y_hat_adj, y_hat_cbm, y_hat_bsm =>
      (m.proceed_onestep b.batch_x b.batch_y b.batch_x_mark b.batch_y_mark true).bind fun r =>
      (writeAt tabe_pred t r.y_hat_tabe).bind fun tp =>
      (writeAt y_hat_adj t r.y_hat_adj).bind fun ya =>
      (writeAt y_hat_cbm t r.y_hat_cbm).bind fun yc =>
      (writeCol y_hat_bsm t r.y_hat_bsm).bind fun yb =>
      testLoop rest (t + 1) r.model tp ya yc yb

/-- Matrix of zeros, `np.zeros((n, f))`. -/
def zerosMat (n f : Nat) : List (List Int) :=
  List.replicate n (List.replicate f 0)

/-- Column assignment `mat[:, -1] = s` (writes into the last feature column). -/
def setLastColumn (mat : List (List Int)) (s : List Int) : List (List Int) :=
  List.zipWith (fun row v => row.set (row.length - 1) v) mat s

/-- Column extraction `mat[:, -1]` (reads the last feature column). -/
def lastColumn (mat : List (List Int)) : List Int :=
  mat.map (fun row => row.getLastD 0)

/-- The inverse-transform block of `TabeModel.test` (tabe.py, lines 129-152),
line for line: each series gets its own zero matrix of shape
`(len(y), n_features)`, its values are written into the last column, the
matrix goes through `test_set.inverse_transform`, and the last column is
extracted back out; the base-model rows are processed the same way in a
loop. -/
def applyInverseBlock (test_set : DatasetT) (y tabe_pred y_hat_cbm : List Int)
    (y_hat_bsm : List (List Int)) :
    List Int × List Int × List Int × List (List Int) :=
  let n_features := (test_set.data_y.headD []).length
  let data_y := setLastColumn (zerosMat y.length n_features) y
  let data_final_pred := setLastColumn (zerosMat y.length n_features) tabe_pred
  let data_y_hat_cbm := setLastColumn (zerosMat y.length n_features) y_hat_cbm
  let y2 := lastColumn (test_set.inverse_transform data_y)
  let tabe2 := lastColumn (test_set.inverse_transform data_final_pred)
  let cbm2 := lastColumn (test_set.inverse_transform data_y_hat_cbm)
  let bsm2 := y_hat_bsm.map (fun row =>
    lastColumn (test_set.inverse_transform (setLastColumn (zerosMat y.length n_features) row)))
  (y2, tabe2, cbm2, bsm2)

/-- Generators for the arbitrary contents of the seven `np.empty_like` /
`np.empty` allocations of `TabeModel.test` (index 0, 1, 2, ... of each
fresh buffer). -/
structure Junk where
  tabe : Nat → Int
  adj : Nat → Int
  cbm : Nat → Int
  bsm : Nat → Nat → Int
  q_low : Nat → Int
  q_high : Nat → Int
  stddev : Nat → Int

/-- The eight values returned by `TabeModel.test` (tabe.py, line 155). -/
structure TestResult where
  y : List Int
  tabe_pred : List Int
  y_hat_cbm : List Int
  y_hat_bsm : List (List Int)
  y_hat_q_low : List Int
  y_hat_q_high : List Int
  buy_threshold_q : Option (List Int)
  devi_stddev : List Int

/-- Embedding of `TabeModel.test` (tabe.py, lines 97-155).  The `(test_set, test_loader)`
pair obtained from `get_data_provider(configs, flag='test',
step_by_step=True)` is passed in explicitly; `jk` supplies the arbitrary
initial contents of the uninitialized allocations. -/
def TabeModel.test {CState AState : Type} (m : TabeModel CState AState)
    (test_set : DatasetT) (test_loader : List StepBatch) (jk : Junk) :
    Option (TabeModel CState AState × TestResult) :=
  let y := (test_set.data_y.drop m.configs.seq_len).map (fun row => row.getLastD 0)
  let need_to_invert := test_set.scale && m.configs.inverse
  let tabe_pred := (List.range y.length).map jk.tabe
  let y_hat_adj := (List.range y.length).map jk.adj
  let y_hat_cbm := (List.range y.length).map jk.cbm
  let y_hat_bsm := (List.range m.combiner_model.basemodels.length).map
    (fun i => (List.range y.length).map (jk.bsm i))
  let y_hat_q_low := (List.range y.length).map jk.q_low
  let y_hat_q_high := (List.range y.length).map jk.q_high
  let devi_stddev := (List.range y.length).map jk.stddev
  match testLoop test_loader 0 m tabe_pred y_hat_adj y_hat_cbm y_hat_bsm with
  | none => none
  | some (m2, tabe_pred2, _, y_hat_cbm2, y_hat_bsm2) =>
    let out :=
      if need_to_invert then applyInverseBlock test_set y tabe_pred2 y_hat_cbm2 y_hat_bsm2
      else (y, tabe_pred2, y_hat_cbm2, y_hat_bsm2)
    some (m2,
      { y := out.1
        tabe_pred := out.2.1
        y_hat_cbm := out.2.2.1
        y_hat_bsm := out.2.2.2
        y_hat_q_low := y_hat_q_low
        y_hat_q_high := y_hat_q_high
        buy_threshold_q := none
        devi_stddev := devi_stddev })

/-- The "split's target column offset by the input window length"
(`data_y[configs.seq_len:, -1]`), as the spec describes the truths series. -/
def targetSeries (seq_len : Nat) (data_y : List (List Int)) : List Int :=
  (data_y.drop seq_len).map (fun row => row.getLastD 0)

/-- Modelled from the spec: the reconstruct-transform-extract pattern the
spec prescribes for inverse scaling — embed a 1-D series into a
full-feature-width matrix that is all zeros except the target column, pass
it through the dataset's `inverse_transform`, and extract the target column
back out. -/
def invPattern (ds : DatasetT) (n_features : Nat) (s : List Int) : List Int :=
  (ds.inverse_transform
    (s.map (fun v => (List.replicate n_features (0 : Int)).set (n_features - 1) v))).map
    (fun row => row.getLastD 0)

/-- The dataset registry `data_dict` (dataset_loader.py, lines 14-29):
only the `TABE_FILE` and `TABE_ONLINE` keys are live. -/
inductive DataKind
  | tabe_file
  | tabe_online
deriving DecidableEq

/-- Registry lookup `data_dict[configs.data]`: `none` models the fatal `KeyError` for an
unknown dataset identifier. -/
def data_dict (s : String) : Option DataKind :=
  if s = "TABE_FILE" then some DataKind.tabe_file
  else if s = "TABE_ONLINE" then some DataKind.tabe_online
  else none

/-- The dataset object built by `_data_provider`, recording which constructor
ran and with which arguments (the concrete dataset classes are external). -/
inductive BuiltDataset
  | anomaly (kind : DataKind) (root_path : String) (win_size : Nat) (flag : String)
  | classif (kind : DataKind) (root_path : String) (flag : String)
  | forecast (kind : DataKind) (root_path data_path flag : String)
      (size : Nat × Nat × Nat) (features target : String)
      (timeenc : Nat) (freq : String) (seasonal_patterns : String)
deriving DecidableEq

/-- The `DataLoader` object built by `_data_provider`, recording its
construction arguments; `has_collate` records whether the classification
branch's `collate_fn` was supplied. -/
structure BuiltLoader where
  dataset : BuiltDataset
  batch_size : Nat
  shuffle : Bool
  num_workers : Nat
  drop_last : Bool
  has_collate : Bool
deriving DecidableEq

/-- Embedding of `_data_provider` (dataset_loader.py, lines 32-93). -/
def _data_provider (configs : Configs) (flag : String) (step_by_step : Bool) :
    Option (BuiltDataset × BuiltLoader) :=
  match data_dict configs.data with
  | none => none
  | some Data =>
    let timeenc := if configs.embed ≠ "timeF" then 0 else 1
    let shuffle_flag := if flag = "test" ∨ flag = "TEST" ∨ step_by_step = true then false else true
    let drop_last := false
    let batch_size := if ¬ step_by_step = true then configs.batch_size else 1
    let freq := configs.freq
    if configs.task_name = "anomaly_detection" then
      let data_set := BuiltDataset.anomaly Data configs.root_path configs.seq_len flag
      let data_loader : BuiltLoader :=
        { dataset := data_set, batch_size := batch_size, shuffle := shuffle_flag
          num_workers := configs.num_workers, drop_last := false, has_collate := false }
      some (data_set, data_loader)
    else if configs.task_name = "classification" then
      let data_set := BuiltDataset.classif Data configs.root_path flag
      let data_loader : BuiltLoader :=
        { dataset := data_set, batch_size := batch_size, shuffle := shuffle_flag
          num_workers := configs.num_workers, drop_last := false, has_collate := true }
      some (data_set, data_loader)
    else
      let drop_last := if configs.data = "m4" then false else drop_last
      let data_set := BuiltDataset.forecast Data configs.root_path configs.data_path flag
        (configs.seq_len, configs.label_len, configs.pred_len)
        configs.features configs.target timeenc freq configs.seasonal_patterns
      let data_loader : BuiltLoader :=
        { dataset := data_set, batch_size := batch_size, shuffle := shuffle_flag
          num_workers := configs.num_workers, drop_last := drop_last, has_collate := false }
      some (data_set, data_loader)

/-- Association-list lookup, modelling a Python dict read. -/
def lookupKey {α : Type} : List (String × α) → String → Option α
  | [], _ => none
  | (k, v) :: rest, key => if k = key then some v else lookupKey rest key

/-- The module-level memoization dictionaries `_cache_dataset` and
`_cache_dataloader` (dataset_loader.py, lines 99-100). -/
structure ProviderCache where
  _cache_dataset : List (String × BuiltDataset)
  _cache_dataloader : List (String × BuiltLoader)
deriving DecidableEq

/-- Embedding of `get_data_provider` (dataset_loader.py, lines 101-108), with the
module-level cache threaded explicitly: key = `flag` (+ `'_stb'` when
`step_by_step`); on a miss `_data_provider` runs and both dictionaries gain
the new entry; the cached pair is returned. -/
def get_data_provider (configs : Configs) (flag : String) (step_by_step : Bool)
    (cache : ProviderCache) : Option ((BuiltDataset × BuiltLoader) × ProviderCache) :=
  let key := if step_by_step then flag ++ "_stb" else flag
  match lookupKey cache._cache_dataset key with
  | some ds =>
    match lookupKey cache._cache_dataloader key with
    | some dl => some ((ds, dl), cache)
    | none => none
  | none =>
    match _data_provider configs flag step_by_step with
    | none => none
    | some (ds, dl) =>
      some ((ds, dl),
        { _cache_dataset := (key, ds) :: cache._cache_dataset
          _cache_dataloader := (key, dl) :: cache._cache_dataloader })

theorem setLastEntry_cons_shape (w b : Int) (t : List Int) :
    ∃ u us, setLastEntry w (b :: t) = u :: us := by
  cases t with
  | nil => exact ⟨w, [], rfl⟩
  | cons c t2 => exact ⟨b, setLastEntry w (c :: t2), rfl⟩

theorem setLastEntry_setLastEntry (v w : Int) (l : List Int) :
    setLastEntry v (setLastEntry w l) = setLastEntry v l := by
  induction l with
  | nil => rfl
  | cons a t ih =>
    cases t with
    | nil => rfl
    | cons b t2 =>
      obtain ⟨u, us, hX⟩ := setLastEntry_cons_shape w b t2
      calc setLastEntry v (setLastEntry w (a :: b :: t2))
          = setLastEntry v (a :: setLastEntry w (b :: t2)) := rfl
        _ = setLastEntry v (a :: u :: us) := by rw [hX]
        _ = a :: setLastEntry v (u :: us) := rfl
        _ = a :: setLastEntry v (setLastEntry w (b :: t2)) := by rw [hX]
        _ = a :: setLastEntry v (b :: t2) := by rw [ih]

theorem setLastRowEntry_cons_shape (w : Int) (b : List Int) (t : List (List Int)) :
    ∃ u us, setLastRowEntry w (b :: t) = u :: us := by
  cases t with
  | nil => exact ⟨setLastEntry w b, [], rfl⟩
  | cons c t2 => exact ⟨b, setLastRowEntry w (c :: t2), rfl⟩

theorem setLastRowEntry_setLastRowEntry (v w : Int) (p : List (List Int)) :
    setLastRowEntry v (setLastRowEntry w p) = setLastRowEntry v p := by
  induction p with
  | nil => rfl
  | cons a t ih =>
    cases t with
    | nil => simp only [setLastRowEntry, setLastEntry_setLastEntry]
    | cons b t2 =>
      obtain ⟨u, us, hX⟩ := setLastRowEntry_cons_shape w b t2
      calc setLastRowEntry v (setLastRowEntry w (a :: b :: t2))
          = setLastRowEntry v (a :: setLastRowEntry w (b :: t2)) := rfl
        _ = setLastRowEntry v (a :: u :: us) := by rw [hX]
        _ = a :: setLastRowEntry v (u :: us) := rfl
        _ = a :: setLastRowEntry v (setLastRowEntry w (b :: t2)) := by rw [hX]
        _ = a :: setLastRowEntry v (b :: t2) := by rw [ih]

theorem maskTruth_setTruth (batch_y : Batch) (v : Int) :
    maskTruth (setTruth batch_y v) = maskTruth batch_y := by
  cases batch_y with
  | nil => rfl
  | cons page rest =>
    simp only [maskTruth, setTruth, setLastRowEntry_setLastRowEntry]

theorem setTruth_length (batch_y : Batch) (v : Int) :
    (setTruth batch_y v).length = batch_y.length := by
  cases batch_y <;> rfl

/-- C1: For every single-step window, the prediction returned by
`TabeModel.proceed_onestep` for that step is not influenced by the truth
value embedded in that same window (last step, last feature of the target):
two calls on windows that differ only in that truth entry, from the same
model state, return the same predictions (the tabe, adjusted, combiner and
per-base-model predictions all agree). -/
theorem tabe_C1 {CState AState : Type} (m : TabeModel CState AState)
    (batch_x batch_y batch_x_mark batch_y_mark : Batch) (v : Int) (training : Bool) :
    Option.map (fun r => (r.y_hat_tabe, r.y_hat_adj, r.y_hat_cbm, r.y_hat_bsm))
      (m.proceed_onestep batch_x (setTruth batch_y v) batch_x_mark batch_y_mark training)
    = Option.map (fun r => (r.y_hat_tabe, r.y_hat_adj, r.y_hat_cbm, r.y_hat_bsm))
      (m.proceed_onestep batch_x batch_y batch_x_mark batch_y_mark training) := by
  unfold TabeModel.proceed_onestep
  rw [setTruth_length]
  by_cases h : batch_x.length = 1 ∧ batch_y.length = 1
  · simp only [if_pos h, Option.map_some, Combiner.proceed_onestep,
      Adjuster.proceed_onestep, maskTruth_setTruth]
    cases m.adjuster_model <;> rfl
  · simp only [if_neg h, Option.map_none]

/-- C8: `proceed_onestep` fails with a fatal assertion error if and only if
the given window's batch dimension is not of size 1 (for either the input or
the target batch); a violating window is never silently truncated or
processed. -/
theorem tabe_C8 {CState AState : Type} (m : TabeModel CState AState)
    (batch_x batch_y batch_x_mark batch_y_mark : Batch) (training : Bool) :
    m.proceed_onestep batch_x batch_y batch_x_mark batch_y_mark training = none
      ↔ ¬ (batch_x.length = 1 ∧ batch_y.length = 1) := by
  unfold TabeModel.proceed_onestep
  split <;> simp_all

theorem proceed_onestep_some_fields {CState AState : Type} (m : TabeModel CState AState)
    (batch_x batch_y batch_x_mark batch_y_mark : Batch) (training : Bool)
    (r : StepResult CState AState)
    (h : m.proceed_onestep batch_x batch_y batch_x_mark batch_y_mark training = some r) :
    r.model.truths = m.truths ++ [getTruth batch_y]
    ∧ r.model.y_hat = m.y_hat ++ [r.y_hat_tabe]
    ∧ r.model.y_hat_cbm = m.y_hat_cbm ++ [r.y_hat_cbm]
    ∧ r.model.adjuster_model = m.adjuster_model
    ∧ r.model.configs = m.configs
    ∧ r.model.combiner_model = m.combiner_model := by
  unfold TabeModel.proceed_onestep at h
  split at h
  · injection h with h2
    subst h2
    simp
  · exact Option.noConfusion h

theorem proceed_onestep_adjnone {CState AState : Type} (m : TabeModel CState AState)
    (batch_x batch_y batch_x_mark batch_y_mark : Batch) (training : Bool)
    (r : StepResult CState AState)
    (hadj : m.adjuster_model = none)
    (h : m.proceed_onestep batch_x batch_y batch_x_mark batch_y_mark training = some r) :
    r.y_hat_tabe = r.y_hat_cbm := by
  unfold TabeModel.proceed_onestep at h
  split at h
  · rw [hadj] at h
    injection h with h2
    subst h2
    rfl
  · exact Option.noConfusion h

theorem collectCbm_length {CState : Type} (c : Combiner CState)
    (loader : List StepBatch) :
    ∀ (s : CState) (acc : List Int),
      (collectCbm c loader s acc).2.length = acc.length + loader.length := by
  induction loader with
  | nil => intro s acc; simp [collectCbm]
  | cons b rest ih =>
    intro s acc
    simp only [collectCbm, ih, List.length_append, List.length_cons, List.length_nil]
    omega

/-- C7: `train()` checks that the number of collected combiner predictions
equals the number of truths (equivalently, that the truths array length
equals the number of loader steps); a mismatch is a fatal assertion failure
that aborts the run, and under the equal-length precondition the failure
branch is unreachable.  On every successful run the stored combiner
prediction series has exactly as many entries as the stored truths. -/
theorem tabe_C7 {CState AState : Type} (m : TabeModel CState AState)
    (ds : DatasetT) (loader : List StepBatch) :
    (m.train ds loader = none
      ↔ (targetSeries m.configs.seq_len ds.data_y).length ≠ loader.length)
    ∧ Option.map (fun m2 => m2.y_hat_cbm.length) (m.train ds loader)
      = Option.map (fun m2 => m2.truths.length) (m.train ds loader) := by
  unfold TabeModel.train targetSeries
  by_cases h : ((ds.data_y.drop m.configs.seq_len).map (fun row => row.getLastD 0)).length
      = loader.length
  · have h2 : ds.data_y.length - m.configs.seq_len = loader.length := by simpa using h
    rw [if_pos h]
    cases m.adjuster_model with
    | none =>
      exact ⟨iff_of_false (by simp) (not_not_intro h), by simp [collectCbm_length, h2]⟩
    | some adj =>
      exact ⟨iff_of_false (by simp) (not_not_intro h), by simp [collectCbm_length, h2]⟩
  · rw [if_neg h]
    exact ⟨iff_of_true rfl h, rfl⟩

theorem writeAt_some (l : List Int) (t : Nat) (v : Int) (out : List Int)
    (h : writeAt l t v = some out) : t < l.length ∧ out = l.set t v := by
  unfold writeAt at h
  split at h
  · injection h with h2
    exact ⟨by assumption, h2.symm⟩
  · exact Option.noConfusion h

theorem take_set_succ (l : List Int) (t : Nat) (v : Int) (h : t < l.length) :
    (l.set t v).take (t + 1) = l.take t ++ [v] := by
  induction l generalizing t with
  | nil => simp at h
  | cons a tl ih =>
    cases t with
    | zero => simp
    | succ t2 =>
      simp only [List.length_cons, Nat.succ_lt_succ_iff] at h
      simp [List.set, ih t2 h]

theorem testLoop_adjnone {CState AState : Type} (loader : List StepBatch) :
    ∀ (t : Nat) (m : TabeModel CState AState) (ta ad cb : List Int)
      (bs : List (List Int))
      (out : TabeModel CState AState × List Int × List Int × List Int × List (List Int)),
      m.adjuster_model = none →
      ta.length = cb.length →
      ta.take t = cb.take t →
      testLoop loader t m ta ad cb bs = some out →
      out.2.1.length = ta.length ∧ out.2.2.2.1.length = cb.length ∧
        out.2.1.take (t + loader.length) = out.2.2.2.1.take (t + loader.length) := by
  induction loader with
  | nil =>
    intro t m ta ad cb bs out hadj hlen hpre hrun
    simp only [testLoop] at hrun
    injection hrun with h2
    subst h2
    exact ⟨rfl, rfl, hpre⟩
  | cons b rest ih =>
    intro t m ta ad cb bs out hadj hlen hpre hrun
    simp only [testLoop] at hrun
    cases hp : m.proceed_onestep b.batch_x b.batch_y b.batch_x_mark b.batch_y_mark true with
    | none => rw [hp, Option.none_bind] at hrun; exact Option.noConfusion hrun
    | some r =>
      rw [hp, Option.some_bind] at hrun
      cases h1 : writeAt ta t r.y_hat_tabe with
      | none => rw [h1, Option.none_bind] at hrun; exact Option.noConfusion hrun
      | some tp =>
        rw [h1, Option.some_bind] at hrun
        cases h2 : writeAt ad t r.y_hat_adj with
        | none => rw [h2, Option.none_bind] at hrun; exact Option.noConfusion hrun
        | some ap =>
          rw [h2, Option.some_bind] at hrun
          cases h3 : writeAt cb t r.y_hat_cbm with
          | none => rw [h3, Option.none_bind] at hrun; exact Option.noConfusion hrun
          | some cp =>
            rw [h3, Option.some_bind] at hrun
            cases h4 : writeCol bs t r.y_hat_bsm with
            | none => rw [h4, Option.none_bind] at hrun; exact Option.noConfusion hrun
            | some bp =>
              rw [h4, Option.some_bind] at hrun
              obtain ⟨hlt1, htp⟩ := writeAt_some _ _ _ _ h1
              obtain ⟨hlt3, hcp⟩ := writeAt_some _ _ _ _ h3
              have heqv : r.y_hat_tabe = r.y_hat_cbm :=
                proceed_onestep_adjnone m _ _ _ _ _ r hadj hp
              have hadj2 : r.model.adjuster_model = none := by
                rw [(proceed_onestep_some_fields m _ _ _ _ _ r hp).2.2.2.1, hadj]
              have hlen2 : tp.length = cp.length := by
                rw [htp, hcp, List.length_set, List.length_set]; exact hlen
              have hpre2 : tp.take (t + 1) = cp.take (t + 1) := by
                rw [htp, hcp, take_set_succ ta t _ hlt1, take_set_succ cb t _ hlt3,
                  hpre, heqv]
              obtain ⟨o1, o2, o3⟩ := ih (t + 1) r.model tp ap cp bp out hadj2 hlen2 hpre2 hrun
              refine ⟨?_, ?_, ?_⟩
              · rw [o1, htp, List.length_set]
              · rw [o2, hcp, List.length_set]
              · have harith : t + (rest.length + 1) = (t + 1) + rest.length := by omega
                simpa [harith] using o3

theorem testLoop_hist {CState AState : Type} (loader : List StepBatch) :
    ∀ (t : Nat) (m : TabeModel CState AState) (ta ad cb : List Int)
      (bs : List (List Int))
      (out : TabeModel CState AState × List Int × List Int × List Int × List (List Int)),
      testLoop loader t m ta ad cb bs = some out →
      m.truths.length = m.y_hat.length →
      m.y_hat.length = m.y_hat_cbm.length →
      out.1.truths.length = out.1.y_hat.length
        ∧ out.1.y_hat.length = out.1.y_hat_cbm.length := by
  induction loader with
  | nil =>
    intro t m ta ad cb bs out hrun e1 e2
    simp only [testLoop] at hrun
    injection hrun with h2
    subst h2
    exact ⟨e1, e2⟩
  | cons b rest ih =>
    intro t m ta ad cb bs out hrun e1 e2
    simp only [testLoop] at hrun
    cases hp : m.proceed_onestep b.batch_x b.batch_y b.batch_x_mark b.batch_y_mark true with
    | none => rw [hp, Option.none_bind] at hrun; exact Option.noConfusion hrun
    | some r =>
      rw [hp, Option.some_bind] at hrun
      cases h1 : writeAt ta t r.y_hat_tabe with
      | none => rw [h1, Option.none_bind] at hrun; exact Option.noConfusion hrun
      | some tp =>
        rw [h1, Option.some_bind] at hrun
        cases h2 : writeAt ad t r.y_hat_adj with
        | none => rw [h2, Option.none_bind] at hrun; exact Option.noConfusion hrun
        | some ap =>
          rw [h2, Option.some_bind] at hrun
          cases h3 : writeAt cb t r.y_hat_cbm with
          | none => rw [h3, Option.none_bind] at hrun; exact Option.noConfusion hrun
          | some cp =>
            rw [h3, Option.some_bind] at hrun
            cases h4 : writeCol bs t r.y_hat_bsm with
            | none => rw [h4, Option.none_bind] at hrun; exact Option.noConfusion hrun
            | some bp =>
              rw [h4, Option.some_bind] at hrun
              obtain ⟨f1, f2, f3, _, _, _⟩ := proceed_onestep_some_fields m _ _ _ _ _ r hp
              have e1n : r.model.truths.length = r.model.y_hat.length := by
                rw [f1, f2]; simp [e1]
              have e2n : r.model.y_hat.length = r.model.y_hat_cbm.length := by
                rw [f2, f3]; simp [e2]
              exact ih (t + 1) r.model tp ap cp bp out hrun e1n e2n

/-- C2: when no Adjuster is configured (`adjuster_model is None`), the
ensemble prediction sequence equals the combiner prediction sequence
element-wise, for all steps, in both `train()` and `test()`, and each
`proceed_onestep` returns a corrected prediction equal to the combiner
prediction. -/
theorem tabe_C2 {CState AState : Type} (m : TabeModel CState AState)
    (ds : DatasetT) (loader : List StepBatch)
    (batch_x batch_y batch_x_mark batch_y_mark : Batch) (training : Bool)
    (tds : DatasetT) (tloader : List StepBatch) (jk : Junk)
    (hadj : m.adjuster_model = none)
    (hlen : tloader.length = (targetSeries m.configs.seq_len tds.data_y).length) :
    Option.map (fun m2 => m2.y_hat) (m.train ds loader)
      = Option.map (fun m2 => m2.y_hat_cbm) (m.train ds loader)
    ∧ Option.map (fun r => r.y_hat_tabe)
        (m.proceed_onestep batch_x batch_y batch_x_mark batch_y_mark training)
      = Option.map (fun r => r.y_hat_cbm)
        (m.proceed_onestep batch_x batch_y batch_x_mark batch_y_mark training)
    ∧ Option.map (fun p => p.2.tabe_pred) (m.test tds tloader jk)
      = Option.map (fun p => p.2.y_hat_cbm) (m.test tds tloader jk) := by
  refine ⟨?_, ?_, ?_⟩
  · simp only [TabeModel.train, hadj]
    split
    · rfl
    · rfl
  · unfold TabeModel.proceed_onestep
    rw [hadj]
    split
    · rfl
    · rfl
  · have hlen2 : tloader.length
        = ((tds.data_y.drop m.configs.seq_len).map (fun row => row.getLastD 0)).length := hlen
    simp only [TabeModel.test]
    split
    · rfl
    · rename_i m2 tp ap cp bp ht
      obtain ⟨o1, o2, o3⟩ :=
        testLoop_adjnone tloader 0 m _ _ _ _ _ hadj (by simp) (by simp) ht
      have htp_len : tp.length
          = ((tds.data_y.drop m.configs.seq_len).map (fun row => row.getLastD 0)).length := by
        simpa using o1
      have hcp_len : cp.length
          = ((tds.data_y.drop m.configs.seq_len).map (fun row => row.getLastD 0)).length := by
        simpa using o2
      have heq : tp = cp := by
        have h3 : tp.take tloader.length = cp.take tloader.length := by simpa using o3
        have e1 : tp.take tloader.length = tp := by
          rw [hlen2, ← htp_len]; exact List.take_length tp
        have e2 : cp.take tloader.length = cp := by
          rw [hlen2, ← hcp_len]; exact List.take_length cp
        rw [e1, e2] at h3
        exact h3
      subst heq
      split <;> rfl

/-- C3: after any completed `train()` call, completed `test()` call, or
completed `proceed_onestep` call, the truths, ensemble-prediction (`y_hat`)
and combiner-prediction (`y_hat_cbm`) sequences of the prediction history
all have equal length (for `test()`: provided they were of equal length
before the call, as a completed `train()` guarantees); each
`proceed_onestep` appends exactly one entry to each. -/
theorem tabe_C3 {CState AState : Type} (m : TabeModel CState AState)
    (ds : DatasetT) (loader : List StepBatch)
    (batch_x batch_y batch_x_mark batch_y_mark : Batch) (training : Bool)
    (tds : DatasetT) (tloader : List StepBatch) (jk : Junk)
    (hpre : m.truths.length = m.y_hat.length ∧ m.y_hat.length = m.y_hat_cbm.length) :
    Option.map (fun r => (r.model.truths, r.model.y_hat, r.model.y_hat_cbm))
        (m.proceed_onestep batch_x batch_y batch_x_mark batch_y_mark training)
      = Option.map (fun r => (m.truths ++ [getTruth batch_y],
            m.y_hat ++ [r.y_hat_tabe], m.y_hat_cbm ++ [r.y_hat_cbm]))
        (m.proceed_onestep batch_x batch_y batch_x_mark batch_y_mark training)
    ∧ Option.map (fun m2 => (m2.truths.length, m2.y_hat.length)) (m.train ds loader)
      = Option.map (fun m2 => (m2.y_hat_cbm.length, m2.y_hat_cbm.length)) (m.train ds loader)
    ∧ Option.map (fun p => (p.1.truths.length, p.1.y_hat.length)) (m.test tds tloader jk)
      = Option.map (fun p => (p.1.y_hat_cbm.length, p.1.y_hat_cbm.length))
        (m.test tds tloader jk) := by
  refine ⟨?_, ?_, ?_⟩
  · cases hp : m.proceed_onestep batch_x batch_y batch_x_mark batch_y_mark training with
    | none => rfl
    | some r =>
      obtain ⟨f1, f2, f3, _, _, _⟩ :=
        proceed_onestep_some_fields m batch_x batch_y batch_x_mark batch_y_mark training r hp
      simp [f1, f2, f3]
  · cases hma : m.adjuster_model with
    | none =>
      simp only [TabeModel.train, hma]
      split
      · rename_i hy
        have hy2 : ds.data_y.length - m.configs.seq_len = loader.length := by simpa using hy
        simp [collectCbm_length, hy2]
      · rfl
    | some adj =>
      simp only [TabeModel.train, hma]
      split
      · rename_i hy
        have hy2 : ds.data_y.length - m.configs.seq_len = loader.length := by simpa using hy
        simp [collectCbm_length, adj.trainBatch_length, hy2]
      · rfl
  · simp only [TabeModel.test]
    split
    · rfl
    · rename_i m2 tp ap cp bp ht
      obtain ⟨g1, g2⟩ :=
        testLoop_hist tloader 0 m _ _ _ _ (m2, tp, ap, cp, bp) ht hpre.1 hpre.2
      simp [g1.trans g2, g2]

/-- A one-base-model combiner with constant predictions, for concrete runs. -/
def exCombiner : Combiner Unit where
  basemodels := [()]
  predict := fun _ _ _ _ _ => (0, [0])
  update := fun s _ _ _ _ => s
  trainFull := fun s => s

/-- A concrete configuration for concrete runs. -/
def exConfigs : Configs where
  data := "TABE_FILE"
  task_name := "long_term_forecast"
  embed := "timeF"
  freq := "h"
  batch_size := 32
  num_workers := 0
  seq_len := 1
  label_len := 0
  pred_len := 1
  features := "MS"
  target := "close"
  seasonal_patterns := "Monthly"
  root_path := ""
  data_path := ""
  inverse := false

/-- A freshly constructed orchestrator with no adjuster and empty history. -/
def exModel : TabeModel Unit Unit where
  configs := exConfigs
  combiner_model := exCombiner
  adjuster_model := none
  cState := ()
  aState := ()
  y_hat := []
  truths := []
  y_hat_cbm := []

/-- A three-row single-feature dataset (so the target series has two steps). -/
def exDataset : DatasetT where
  data_y := [[0], [1], [2]]
  scale := false
  inverse_transform := fun mat => mat

/-- A single-step window batch. -/
def exBatch : StepBatch where
  batch_x := [[[0]]]
  batch_y := [[[0]]]
  batch_x_mark := [[[0]]]
  batch_y_mark := [[[0]]]

/-- All-zero stand-ins for the uninitialized allocation contents. -/
def exJunk : Junk where
  tabe := fun _ => 0
  adj := fun _ => 0
  cbm := fun _ => 0
  bsm := fun _ _ => 0
  q_low := fun _ => 0
  q_high := fun _ => 0
  stddev := fun _ => 0

/-- Witness for C2: the theorem applied to a concrete adjuster-free
orchestrator and a two-step run, hypotheses discharged concretely. -/
theorem tabe_C2_witness :
    (exModel.adjuster_model = none
      ∧ [exBatch, exBatch].length = (targetSeries exModel.configs.seq_len exDataset.data_y).length)
    ∧ (Option.map (fun m2 => m2.y_hat) (exModel.train exDataset [exBatch, exBatch])
        = Option.map (fun m2 => m2.y_hat_cbm) (exModel.train exDataset [exBatch, exBatch])
      ∧ Option.map (fun r => r.y_hat_tabe)
          (exModel.proceed_onestep [[[0]]] [[[0]]] [[[0]]] [[[0]]] true)
        = Option.map (fun r => r.y_hat_cbm)
          (exModel.proceed_onestep [[[0]]] [[[0]]] [[[0]]] [[[0]]] true)
      ∧ Option.map (fun p => p.2.tabe_pred) (exModel.test exDataset [exBatch, exBatch] exJunk)
        = Option.map (fun p => p.2.y_hat_cbm) (exModel.test exDataset [exBatch, exBatch] exJunk)) :=
  ⟨⟨rfl, by decide⟩,
   tabe_C2 exModel exDataset [exBatch, exBatch] [[[0]]] [[[0]]] [[[0]]] [[[0]]] true
     exDataset [exBatch, exBatch] exJunk rfl (by decide)⟩

/-- Witness for C3: the theorem applied to a concrete orchestrator with
(equal-length) empty history, hypotheses discharged concretely. -/
theorem tabe_C3_witness :
    (exModel.truths.length = exModel.y_hat.length
      ∧ exModel.y_hat.length = exModel.y_hat_cbm.length)
    ∧ (Option.map (fun r => (r.model.truths, r.model.y_hat, r.model.y_hat_cbm))
          (exModel.proceed_onestep [[[0]]] [[[0]]] [[[0]]] [[[0]]] true)
        = Option.map (fun r => (exModel.truths ++ [getTruth [[[0]]]],
              exModel.y_hat ++ [r.y_hat_tabe], exModel.y_hat_cbm ++ [r.y_hat_cbm]))
          (exModel.proceed_onestep [[[0]]] [[[0]]] [[[0]]] [[[0]]] true)
      ∧ Option.map (fun m2 => (m2.truths.length, m2.y_hat.length))
          (exModel.train exDataset [exBatch, exBatch])
        = Option.map (fun m2 => (m2.y_hat_cbm.length, m2.y_hat_cbm.length))
          (exModel.train exDataset [exBatch, exBatch])
      ∧ Option.map (fun p => (p.1.truths.length, p.1.y_hat.length))
          (exModel.test exDataset [exBatch, exBatch] exJunk)
        = Option.map (fun p => (p.1.y_hat_cbm.length, p.1.y_hat_cbm.length))
          (exModel.test exDataset [exBatch, exBatch] exJunk)) :=
  ⟨⟨rfl, rfl⟩,
   tabe_C3 exModel exDataset [exBatch, exBatch] [[[0]]] [[[0]]] [[[0]]] [[[0]]] true
     exDataset [exBatch, exBatch] exJunk ⟨rfl, rfl⟩⟩

/-- C4: two successive `get_data_provider` calls with the same
`(flag, step_by_step)` key return the identical `(Dataset, Loader)` pair and
leave the cache unchanged after the first call — even when the config passed
to the second call differs from the one used to build the entry. -/
theorem tabe_C4 (configs configs2 : Configs) (flag : String) (step_by_step : Bool)
    (cache : ProviderCache) :
    (get_data_provider configs flag step_by_step cache).bind
        (fun r => get_data_provider configs2 flag step_by_step r.2)
      = get_data_provider configs flag step_by_step cache := by
  unfold get_data_provider
  generalize (if step_by_step then flag ++ "_stb" else flag) = key
  cases h1 : lookupKey cache._cache_dataset key with
  | some ds =>
    cases h2 : lookupKey cache._cache_dataloader key with
    | some dl => simp [h1, h2]
    | none => simp [h1, h2]
  | none =>
    cases h3 : _data_provider configs flag step_by_step with
    | none => simp [h1, h3]
    | some p =>
      obtain ⟨ds, dl⟩ := p
      simp [h1, h3, lookupKey]

/-- C5: the loader built by `_data_provider` has batch size 1 and shuffling
disabled whenever `step_by_step` is true, regardless of the requested batch
size; and shuffling is also disabled whenever the split flag is `'test'` or
`'TEST'`, even in non-stepwise mode. -/
theorem tabe_C5 (configs : Configs) (flag : String) (step_by_step : Bool) :
    Option.map (fun p => (p.2.batch_size, p.2.shuffle)) (_data_provider configs flag true)
      = Option.map (fun _ => (1, false)) (_data_provider configs flag true)
    ∧ Option.map (fun p => p.2.shuffle) (_data_provider configs "test" step_by_step)
      = Option.map (fun _ => false) (_data_provider configs "test" step_by_step)
    ∧ Option.map (fun p => p.2.shuffle) (_data_provider configs "TEST" step_by_step)
      = Option.map (fun _ => false) (_data_provider configs "TEST" step_by_step) := by
  refine ⟨?_, ?_, ?_⟩ <;>
  · unfold _data_provider
    cases data_dict configs.data with
    | none => rfl
    | some Data =>
      by_cases hA : configs.task_name = "anomaly_detection" <;>
        by_cases hB : configs.task_name = "classification" <;>
        simp [hA, hB]

theorem setLastColumn_zeros (nF : Nat) :
    ∀ (s : List Int) (n : Nat), s.length = n →
      setLastColumn (zerosMat n nF) s
        = s.map (fun v => (List.replicate nF (0 : Int)).set (nF - 1) v) := by
  intro s
  induction s with
  | nil => intro n h; simp [setLastColumn, zerosMat]
  | cons a t ih =>
    intro n h
    cases n with
    | zero => simp at h
    | succ k =>
      have ht : t.length = k := by simpa using h
      have step : setLastColumn (zerosMat (k + 1) nF) (a :: t)
          = (List.replicate nF (0 : Int)).set (nF - 1) a :: setLastColumn (zerosMat k nF) t := by
        simp [setLastColumn, zerosMat, List.replicate_succ]
      rw [step, ih k ht, List.map_cons]

theorem applyInverseBlock_fst (ds : DatasetT) (y tabe cbm : List Int)
    (bsm : List (List Int)) :
    (applyInverseBlock ds y tabe cbm bsm).1
      = invPattern ds (ds.data_y.headD []).length y := by
  simp only [applyInverseBlock, invPattern, lastColumn]
  rw [setLastColumn_zeros _ y y.length rfl]

theorem applyInverseBlock_eq (ds : DatasetT) (y tabe cbm : List Int)
    (bsm : List (List Int))
    (h1 : tabe.length = y.length) (h2 : cbm.length = y.length)
    (h3 : ∀ row ∈ bsm, row.length = y.length) :
    applyInverseBlock ds y tabe cbm bsm
      = (invPattern ds (ds.data_y.headD []).length y,
         invPattern ds (ds.data_y.headD []).length tabe,
         invPattern ds (ds.data_y.headD []).length cbm,
         bsm.map (invPattern ds (ds.data_y.headD []).length)) := by
  simp only [applyInverseBlock, invPattern, lastColumn]
  rw [setLastColumn_zeros _ y y.length rfl,
      setLastColumn_zeros _ tabe y.length h1,
      setLastColumn_zeros _ cbm y.length h2]
  simp only [Prod.mk.injEq]
  refine ⟨trivial, trivial, trivial, ?_⟩
  refine List.map_congr_left ?_
  intro row hrow
  rw [setLastColumn_zeros _ row y.length (h3 row hrow)]
  rfl

/-- C9: the inverse-scaling block of `test()` treats every 1-D output series
(truths, ensemble prediction, combiner prediction, and each base-model
prediction row) with one identical pattern: embed the series into a
full-feature-width matrix that is all zeros except the target column, apply
the dataset's `inverse_transform`, and extract the target column back out. -/
theorem tabe_C9 (ds : DatasetT) (y tabe cbm : List Int) (bsm : List (List Int))
    (h1 : tabe.length = y.length) (h2 : cbm.length = y.length)
    (h3 : ∀ row ∈ bsm, row.length = y.length) :
    applyInverseBlock ds y tabe cbm bsm
      = (invPattern ds (ds.data_y.headD []).length y,
         invPattern ds (ds.data_y.headD []).length tabe,
         invPattern ds (ds.data_y.headD []).length cbm,
         bsm.map (invPattern ds (ds.data_y.headD []).length)) :=
  applyInverseBlock_eq ds y tabe cbm bsm h1 h2 h3

/-- Witness for C9: the theorem applied to a concrete dataset and concrete
equal-length series. -/
theorem tabe_C9_witness :
    (([2] : List Int).length = ([1] : List Int).length
      ∧ ([3] : List Int).length = ([1] : List Int).length
      ∧ ∀ row ∈ ([[4]] : List (List Int)), row.length = ([1] : List Int).length)
    ∧ applyInverseBlock exDataset [1] [2] [3] [[4]]
      = (invPattern exDataset (exDataset.data_y.headD []).length [1],
         invPattern exDataset (exDataset.data_y.headD []).length [2],
         invPattern exDataset (exDataset.data_y.headD []).length [3],
         ([[4]] : List (List Int)).map (invPattern exDataset (exDataset.data_y.headD []).length)) :=
  ⟨⟨rfl, rfl, by decide⟩,
   tabe_C9 exDataset [1] [2] [3] [[4]] rfl rfl (by decide)⟩

/-- C6: in both `train()` and `test()`, the truths series is the split's
target column (last feature of `data_y`) offset by the input window length
`seq_len`: a completed `train()` stores exactly that series, and a completed
`test()` returns exactly that series as its truths output (routed through
the inverse-scaling pattern when scaling and inversion are both in
effect). -/
theorem tabe_C6 {CState AState : Type} (m : TabeModel CState AState)
    (ds : DatasetT) (loader : List StepBatch)
    (tds : DatasetT) (tloader : List StepBatch) (jk : Junk) :
    Option.map (fun m2 => m2.truths) (m.train ds loader)
      = Option.map (fun _ => targetSeries m.configs.seq_len ds.data_y) (m.train ds loader)
    ∧ Option.map (fun p => p.2.y) (m.test tds tloader jk)
      = Option.map (fun _ =>
          if tds.scale && m.configs.inverse then
            invPattern tds (tds.data_y.headD []).length
              (targetSeries m.configs.seq_len tds.data_y)
          else targetSeries m.configs.seq_len tds.data_y)
        (m.test tds tloader jk) := by
  constructor
  · cases hma : m.adjuster_model with
    | none =>
      simp only [TabeModel.train, hma]
      split
      · rfl
      · rfl
    | some adj =>
      simp only [TabeModel.train, hma]
      split
      · rfl
      · rfl
  · simp only [TabeModel.test]
    split
    · rfl
    · rename_i m2 tp ap cp bp ht
      by_cases hc : (tds.scale && m.configs.inverse) = true
      · simp only [Option.map_some, if_pos hc]
        exact congrArg some (applyInverseBlock_fst tds _ tp cp bp)
      · simp only [Option.map_some, if_neg hc]
        rfl

/-- C10: `test()` always returns `None` as its seventh result (the buy
threshold), and its fifth, sixth and eighth results (`y_hat_q_low`,
`y_hat_q_high`, `devi_stddev`) are exactly the arbitrary uninitialized
contents of their `np.empty_like` allocations — never written after
allocation, hence not derived from any prediction or truth. -/
theorem tabe_C10 {CState AState : Type} (m : TabeModel CState AState)
    (tds : DatasetT) (tloader : List StepBatch) (jk : Junk) :
    Option.map (fun p => (p.2.buy_threshold_q, p.2.y_hat_q_low,
        p.2.y_hat_q_high, p.2.devi_stddev)) (m.test tds tloader jk)
      = Option.map (fun _ => ((none : Option (List Int)),
          (List.range (targetSeries m.configs.seq_len tds.data_y).length).map jk.q_low,
          (List.range (targetSeries m.configs.seq_len tds.data_y).length).map jk.q_high,
          (List.range (targetSeries m.configs.seq_len tds.data_y).length).map jk.stddev))
        (m.test tds tloader jk) := by
  simp only [TabeModel.test]
  split
  · rfl
  · rfl
